import Mathlib

/-!
Shallow embedding of the `Pusher` class of the pyth-js EVM price pusher
(`src/pyth-evm-price-pusher/src/pusher.ts`), together with theorems checking
the natural-language specification against it.

Prices and confidences are modelled as exact rationals (the source converts
its string values with `Number(...)` and compares them), publish times and
thresholds as integers (Unix seconds).
-/

namespace PythPusher

/-- A price observation as delivered by a `PriceListener`
(`price`, `conf`, `publishTime` fields of `PriceInfo`). -/
structure PriceInfo where
  price : ℚ
  conf : ℚ
  publishTime : ℤ
deriving DecidableEq

/-- Per-feed configuration: identity plus the three thresholds
(`timeDifference` in seconds, `priceDeviation` and `confidenceRatio` in
percent).  The source's `alias` field is spelled `feedAlias` because `alias`
is a reserved word here. -/
structure PriceConfig where
  id : String
  feedAlias : String
  timeDifference : ℤ
  priceDeviation : ℚ
  confidenceRatio : ℚ
deriving DecidableEq

/-- The `timeDifference` local of `shouldUpdate`:
`sourceLatestPrice.publishTime - targetLatestPrice.publishTime`. -/
def timeDifference (src tgt : PriceInfo) : ℤ :=
  src.publishTime - tgt.publishTime

/-- The `priceDeviationPct` local of `shouldUpdate`:
`Math.abs(Number(src.price) - Number(tgt.price)) / Number(tgt.price) * 100`.
Note that the source applies `Math.abs` to the numerator only; the
denominator is the target price as-is. -/
def priceDeviationPct (src tgt : PriceInfo) : ℚ :=
  |src.price - tgt.price| / tgt.price * 100

/-- The `confidenceRatioPct` local of `shouldUpdate`:
`Math.abs(Number(src.conf) / Number(src.price) * 100)`. -/
def confidenceRatioPct (src : PriceInfo) : ℚ :=
  |src.conf / src.price * 100|

/-- `Pusher.shouldUpdate` (pusher.ts lines 164-237): the three ordered guard
rules followed by the OR-combination of the three threshold comparisons. -/
def shouldUpdate (priceConfig : PriceConfig)
    (sourceLatestPrice targetLatestPrice : Option PriceInfo) : Bool :=
  match sourceLatestPrice with
  | none => false
  | some src =>
    match targetLatestPrice with
    | none => true
    | some tgt =>
      if src.publishTime < tgt.publishTime then
        false
      else
        decide (timeDifference src tgt ≥ priceConfig.timeDifference) ||
        decide (priceDeviationPct src tgt ≥ priceConfig.priceDeviation) ||
        decide (confidenceRatioPct src ≥ priceConfig.confidenceRatio)

/-- The price-deviation formula exactly as the specification words it
(section 4.1, rule 4): absolute value on the numerator AND on the
denominator.  Kept separate from `priceDeviationPct`, which embeds the
source, so the two can be compared. -/
def specPriceDeviationPct (src tgt : PriceInfo) : ℚ :=
  |src.price - tgt.price| / |tgt.price| * 100

/-- Division made explicit about its domain: `none` when the denominator is
zero, otherwise the quotient. -/
def divChecked (a b : ℚ) : Option ℚ :=
  if b = 0 then none else some (a / b)

/-- The deviation signal computed through `divChecked`: defined only when
the target price (the denominator the source divides by) is nonzero. -/
def priceDeviationPctChecked (src tgt : PriceInfo) : Option ℚ :=
  (divChecked |src.price - tgt.price| tgt.price).map (fun q => q * 100)

/-- The confidence signal computed through `divChecked`: defined only when
the source price (the denominator the source divides by) is nonzero. -/
def confidenceRatioPctChecked (src : PriceInfo) : Option ℚ :=
  (divChecked src.conf src.price).map (fun q => |q * 100|)

/-- The `(targetLatestPrice?.publishTime || 0) + 1` expression of
`Pusher.start` (pusher.ts line 77): optional chaining yields `undefined`
when the target observation is absent, `|| 0` maps `undefined` (and the
falsy time `0`) to `0`, and one is added. -/
def baselinePubTime (targetLatestPrice : Option PriceInfo) : ℤ :=
  (match targetLatestPrice with
   | some p => if p.publishTime = 0 then 0 else p.publishTime
   | none => 0) + 1

/-- The batch-building loop of `Pusher.start` (pusher.ts lines 62-79): for
each configured feed, read the two listeners, and when `shouldUpdate` holds
append the config to `pricesToPush` and the baseline publish time captured
at decision time to `pubTimesToPush`. -/
def selectBatch (priceConfigs : List PriceConfig)
    (source target : String → Option PriceInfo) : List PriceConfig × List ℤ :=
  match priceConfigs with
  | [] => ([], [])
  | priceConfig :: rest =>
    let targetLatestPrice := target priceConfig.id
    let sourceLatestPrice := source priceConfig.id
    let acc := selectBatch rest source target
    if shouldUpdate priceConfig sourceLatestPrice targetLatestPrice then
      (priceConfig :: acc.1, baselinePubTime targetLatestPrice :: acc.2)
    else
      acc

/-- Whether `pat` occurs as a contiguous run inside `s` (the semantics of
JavaScript's `String.prototype.includes`). -/
def occursIn (pat : List Char) : List Char → Bool
  | [] => pat.isEmpty
  | c :: rest => pat.isPrefixOf (c :: rest) || occursIn pat rest

/-- `err.message.includes(pat)`: substring containment on strings. -/
def containsSubstr (s pat : String) : Bool :=
  occursIn pat.toList s.toList

/-- The marker matched first by the error handler of `Pusher.pushUpdates`
(pusher.ts line 129): no feed in the batch is fresher than the chain. -/
def freshPricesMsg : String :=
  "no prices in the submitted batch have fresh prices, so this update will have no effect"

/-- The marker matched second (pusher.ts line 138): nonce conflict between
concurrent senders sharing one account. -/
def nonceMsg : String := "the tx doesn\x27t have the correct nonce."

/-- The marker matched third (pusher.ts line 146): the payer cannot cover
the transaction fee. -/
def fundsMsg : String := "sender doesn\x27t have enough funds to send tx."

/-- Classification of one tick's submission, per the data model's
`SubmissionOutcome` (`noop` for the empty batch). -/
inductive SubmissionOutcome
  | noop
  | accepted (hash : String)
  | skippedAlreadyFresh
  | skippedNonceConflict
  | unknownError
deriving DecidableEq

/-- What the chain submission call reports back: a transaction hash or an
error carrying a message. -/
inductive SendEvent
  | txHash (hash : String)
  | sendErr (msg : String)
deriving DecidableEq

/-- The environment of one `pushUpdates` call: the result of
`connection.getPriceFeedsUpdateData`, of `getUpdateFee`, and the event the
`send` call fires. -/
structure Env where
  fetchResult : Except String (List String)
  updateFee : ℕ
  sendEvent : SendEvent

/-- The `on("error", ...)` handler body of `Pusher.pushUpdates` (pusher.ts
lines 126-155): the three substring checks in source order; the first two
return normally with a skip outcome, the third rethrows (`throw err`,
modelled as `Except.error`), anything else returns normally as unknown. -/
def handleSendError (msg : String) : Except String SubmissionOutcome :=
  if containsSubstr msg freshPricesMsg then .ok .skippedAlreadyFresh
  else if containsSubstr msg nonceMsg then .ok .skippedNonceConflict
  else if containsSubstr msg fundsMsg then .error msg
  else .ok .unknownError

/-- What a completed `pushUpdates` did: which external calls were made,
which baseline publish times were sent, and the outcome. -/
structure PushResult where
  fetchCalled : Bool
  feeCalled : Bool
  sendCalled : Bool
  sentPubTimes : List ℤ
  outcome : SubmissionOutcome
deriving DecidableEq

/-- `Pusher.pushUpdates` (pusher.ts lines 88-156): return at once on an
empty batch; fetch the update payload with NO try/catch, so a failing fetch
escapes the function (`Except.error`); otherwise estimate the fee, submit,
and run the error handler on an error event.  `Except.error` models an
exception leaving `pushUpdates` (an unhandled promise rejection, since
`start` does not await the call). -/
def pushUpdates (pricesToPush : List PriceConfig) (pubTimesToPush : List ℤ)
    (env : Env) : Except String PushResult :=
  if pricesToPush.length = 0 then
    .ok ⟨false, false, false, [], .noop⟩
  else
    match env.fetchResult with
    | .error msg => .error msg
    | .ok _priceFeedUpdateData =>
      match env.sendEvent with
      | .txHash h => .ok ⟨true, true, true, pubTimesToPush, .accepted h⟩
      | .sendErr msg =>
        match handleSendError msg with
        | .error m => .error m
        | .ok o => .ok ⟨true, true, true, pubTimesToPush, o⟩

/-- One iteration of the `Pusher.start` loop (pusher.ts lines 61-82)
without the sleep: build the batch, then hand exactly the captured lists to
`pushUpdates`. -/
def runTick (priceConfigs : List PriceConfig)
    (source target : String → Option PriceInfo) (env : Env) :
    Except String PushResult :=
  let batch := selectBatch priceConfigs source target
  pushUpdates batch.1 batch.2 env

/-- An observable event of the `Pusher.start` loop: the batch-building pass
of a tick, the completion of the submission pipeline spawned at a tick, or
the end of a tick's cooldown sleep. -/
inductive TickEvent
  | batcherRun (tick : ℕ)
  | submissionComplete (tick : ℕ)
  | cooldownSleep (tick : ℕ)
deriving DecidableEq

/-- The event order of one iteration of `Pusher.start` (pusher.ts lines
61-82): the batch pass runs, then — because `pushUpdates` is called WITHOUT
`await` on line 80 — the loop goes straight to the cooldown sleep, which is
the only suspension point of the loop; the spawned submission work of a
tick `m` therefore completes during the sleep of tick `m + L m`, where
`L m` is the environment-determined number of whole ticks its fetch and
send take (`L m = 0` meaning it resolves within its own tick's sleep; the
source places no bound on `L`). -/
def tickTrace (L : ℕ → ℕ) (n : ℕ) : List TickEvent :=
  TickEvent.batcherRun n ::
    ((((List.range (n + 1)).filter (fun m => m + L m == n)).map
        TickEvent.submissionComplete) ++
      [TickEvent.cooldownSleep n])

/-- The first `N` ticks of the `Pusher.start` loop, in order. -/
def schedulerTrace (L : ℕ → ℕ) (N : ℕ) : List TickEvent :=
  (List.range N).flatMap (tickTrace L)

/-- Claim C1: with both observations present and the source not older than
the target, `shouldUpdate` is true iff `timeDifference >= timeDifference
threshold` OR `priceDeviationPct >= priceDeviation threshold` OR
`confidenceRatioPct >= confidenceRatio threshold`; the comparisons are
inclusive, so a time difference of exactly the threshold trips the signal,
and a time difference of threshold minus one with the other two signals
below their thresholds yields false. -/
theorem shouldUpdate_iff_thresholds (cfg : PriceConfig) (src tgt : PriceInfo)
    (h : tgt.publishTime ≤ src.publishTime) :
    (shouldUpdate cfg (some src) (some tgt) = true ↔
      (timeDifference src tgt ≥ cfg.timeDifference ∨
       priceDeviationPct src tgt ≥ cfg.priceDeviation ∨
       confidenceRatioPct src ≥ cfg.confidenceRatio)) ∧
    (timeDifference src tgt = cfg.timeDifference →
      shouldUpdate cfg (some src) (some tgt) = true) ∧
    (timeDifference src tgt = cfg.timeDifference - 1 →
      priceDeviationPct src tgt < cfg.priceDeviation →
      confidenceRatioPct src < cfg.confidenceRatio →
      shouldUpdate cfg (some src) (some tgt) = false) := by
  have hiff : shouldUpdate cfg (some src) (some tgt) = true ↔
      (timeDifference src tgt ≥ cfg.timeDifference ∨
       priceDeviationPct src tgt ≥ cfg.priceDeviation ∨
       confidenceRatioPct src ≥ cfg.confidenceRatio) := by
    simp only [shouldUpdate, if_neg (not_lt.mpr h), Bool.or_eq_true,
      decide_eq_true_eq, or_assoc]
  refine ⟨hiff, fun ht => hiff.mpr (Or.inl (le_of_eq ht.symm)), fun h1 h2 h3 => ?_⟩
  rw [Bool.eq_false_iff, Ne, hiff]
  push_neg
  exact ⟨by omega, h2, h3⟩

/-- Witness for C1: the spec's own scenario, thresholds (60, 1%, 10%),
source (price 100, conf 1, t 1000), target (price 100, conf 1, t 941):
time difference 59 = 60 - 1, deviation 0% < 1%, confidence 1% < 10%,
so no push. -/
theorem shouldUpdate_iff_thresholds_witness :
    shouldUpdate (PriceConfig.mk "A" "A" 60 1 10)
      (some (PriceInfo.mk 100 1 1000)) (some (PriceInfo.mk 100 1 941)) = false :=
  (shouldUpdate_iff_thresholds (PriceConfig.mk "A" "A" 60 1 10)
      (PriceInfo.mk 100 1 1000) (PriceInfo.mk 100 1 941) (by norm_num)).2.2
    (by norm_num [timeDifference])
    (by norm_num [priceDeviationPct])
    (by norm_num [confidenceRatioPct])

/-- Claim C2: the three ordered guard rules of `shouldUpdate`: absent
source observation gives false whatever the target is; present source with
absent target gives true; and when both are present but the source is
strictly older than the target the result is false regardless of the
thresholds and signals. -/
theorem shouldUpdate_guards (cfg : PriceConfig) (src tgt : PriceInfo)
    (tgtOpt : Option PriceInfo)
    (h : src.publishTime < tgt.publishTime) :
    shouldUpdate cfg none tgtOpt = false ∧
    shouldUpdate cfg (some src) none = true ∧
    shouldUpdate cfg (some src) (some tgt) = false := by
  refine ⟨rfl, rfl, ?_⟩
  simp only [shouldUpdate, if_pos h]

/-- Witness for C2: source older than target (t 900 vs t 950) with a huge
price deviation (200 against 100) and every threshold at zero, yet no push;
absent-source and absent-target cases at the same inputs. -/
theorem shouldUpdate_guards_witness :
    shouldUpdate (PriceConfig.mk "A" "A" 0 0 0) none (some (PriceInfo.mk 100 1 950)) = false ∧
    shouldUpdate (PriceConfig.mk "A" "A" 0 0 0) (some (PriceInfo.mk 200 1 900)) none = true ∧
    shouldUpdate (PriceConfig.mk "A" "A" 0 0 0)
      (some (PriceInfo.mk 200 1 900)) (some (PriceInfo.mk 100 1 950)) = false :=
  shouldUpdate_guards (PriceConfig.mk "A" "A" 0 0 0)
    (PriceInfo.mk 200 1 900) (PriceInfo.mk 100 1 950)
    (some (PriceInfo.mk 100 1 950)) (by norm_num)

/-- Counterexample for C3: the source divides the deviation numerator by
the target price as-is, with no absolute value on the denominator, so for a
negative target price the computed signal is the negation of the
specification's formula: source price -110 against target price -100 gives
-10, while the spec's formula gives 10. -/
theorem priceDeviationPct_spec_mismatch :
    priceDeviationPct (PriceInfo.mk (-110) 1 1000) (PriceInfo.mk (-100) 1 900) = -10 ∧
    specPriceDeviationPct (PriceInfo.mk (-110) 1 1000) (PriceInfo.mk (-100) 1 900) = 10 ∧
    priceDeviationPct (PriceInfo.mk (-110) 1 1000) (PriceInfo.mk (-100) 1 900) ≠
      specPriceDeviationPct (PriceInfo.mk (-110) 1 1000) (PriceInfo.mk (-100) 1 900) := by
  norm_num [priceDeviationPct, specPriceDeviationPct]

/-- Claim C3 (amended): the deviation signal is
`|src.price - tgt.price| / tgt.price * 100` — target price as denominator
but WITHOUT absolute value on the denominator — which agrees with the
spec's fully-absolute formula whenever the target price is positive; the
confidence signal is `|src.conf / src.price| * 100` with the source price
as denominator; source 110 against target 100 gives exactly 10, and conf 5
at source price 100 gives exactly 5. -/
theorem deviation_and_confidence_formulas (src tgt : PriceInfo)
    (h : 0 < tgt.price) :
    priceDeviationPct src tgt = |src.price - tgt.price| / tgt.price * 100 ∧
    priceDeviationPct src tgt = specPriceDeviationPct src tgt ∧
    confidenceRatioPct src = |src.conf / src.price| * 100 ∧
    priceDeviationPct (PriceInfo.mk 110 1 0) (PriceInfo.mk 100 1 0) = 10 ∧
    confidenceRatioPct (PriceInfo.mk 100 5 0) = 5 := by
  refine ⟨rfl, ?_, ?_, by norm_num [priceDeviationPct], by norm_num [confidenceRatioPct]⟩
  · unfold priceDeviationPct specPriceDeviationPct
    rw [abs_of_pos h]
  · unfold confidenceRatioPct
    rw [abs_mul]
    norm_num

/-- Witness for C3 (amended) at source (110, 1, 0), target (100, 1, 0). -/
theorem deviation_and_confidence_formulas_witness :
    (0:ℚ) < 100 ∧
    (priceDeviationPct (PriceInfo.mk 110 1 0) (PriceInfo.mk 100 1 0) =
        |(110:ℚ) - 100| / 100 * 100 ∧
      priceDeviationPct (PriceInfo.mk 110 1 0) (PriceInfo.mk 100 1 0) =
        specPriceDeviationPct (PriceInfo.mk 110 1 0) (PriceInfo.mk 100 1 0) ∧
      confidenceRatioPct (PriceInfo.mk 110 1 0) = |(1:ℚ) / 110| * 100 ∧
      priceDeviationPct (PriceInfo.mk 110 1 0) (PriceInfo.mk 100 1 0) = 10 ∧
      confidenceRatioPct (PriceInfo.mk 100 5 0) = 5) :=
  ⟨by norm_num,
    deviation_and_confidence_formulas (PriceInfo.mk 110 1 0) (PriceInfo.mk 100 1 0)
      (by norm_num)⟩

/-- Claim C10: the two division-based signals of `shouldUpdate` are
well-defined exactly under the precondition `tgt.price ≠ 0` (deviation) and
`src.price ≠ 0` (confidence ratio): the checked signals are `none` at a
zero denominator and agree with the unguarded signals the source computes
whenever the denominator is nonzero.  `shouldUpdate` itself performs both
divisions with no zero guard. -/
theorem division_precondition (src tgt : PriceInfo) :
    (tgt.price = 0 → priceDeviationPctChecked src tgt = none) ∧
    (src.price = 0 → confidenceRatioPctChecked src = none) ∧
    (tgt.price ≠ 0 →
      priceDeviationPctChecked src tgt = some (priceDeviationPct src tgt)) ∧
    (src.price ≠ 0 →
      confidenceRatioPctChecked src = some (confidenceRatioPct src)) := by
  refine ⟨fun h => ?_, fun h => ?_, fun h => ?_, fun h => ?_⟩ <;>
    simp [priceDeviationPctChecked, confidenceRatioPctChecked, divChecked, h,
      priceDeviationPct, confidenceRatioPct]

/-- Claim C4: a submission error whose message carries the
insufficient-funds marker (and no earlier-matched benign marker) makes the
error handler rethrow: the error crosses the submission pipeline boundary
as `Except.error` instead of being swallowed like every other class. -/
theorem fundsError_propagates (prices : List PriceConfig) (pts : List ℤ)
    (env : Env) (msg : String) (payload : List String)
    (hne : prices ≠ [])
    (hf : env.fetchResult = .ok payload)
    (hs : env.sendEvent = .sendErr msg)
    (h1 : containsSubstr msg fundsMsg = true)
    (h2 : containsSubstr msg freshPricesMsg = false)
    (h3 : containsSubstr msg nonceMsg = false) :
    handleSendError msg = .error msg ∧
    pushUpdates prices pts env = .error msg := by
  have hh : handleSendError msg = .error msg := by
    simp [handleSendError, h1, h2, h3]
  have hlen : ¬ prices.length = 0 := by simpa using hne
  exact ⟨hh, by simp [pushUpdates, hlen, hf, hs, hh]⟩

/-- Witness for C4 at the exact funds marker string. -/
theorem fundsError_propagates_witness :
    handleSendError fundsMsg = Except.error fundsMsg ∧
    pushUpdates [PriceConfig.mk "a" "b" 0 0 0] [1]
      (Env.mk (Except.ok []) 0 (SendEvent.sendErr fundsMsg))
      = Except.error fundsMsg :=
  fundsError_propagates [PriceConfig.mk "a" "b" 0 0 0] [1]
    (Env.mk (Except.ok []) 0 (SendEvent.sendErr fundsMsg)) fundsMsg []
    (List.cons_ne_nil _ _) rfl rfl (by decide) (by decide) (by decide)

/-- Claim C5: a submission error whose message carries the stale-batch
marker or the nonce-conflict marker is handled as a benign race: the
handler returns normally with a skip outcome and `pushUpdates` returns
`Except.ok` — no exception leaves the submission pipeline. -/
theorem benignErrors_skipped (prices : List PriceConfig) (pts : List ℤ)
    (env : Env) (msg : String) (payload : List String)
    (hf : env.fetchResult = .ok payload)
    (hs : env.sendEvent = .sendErr msg)
    (h : containsSubstr msg freshPricesMsg = true ∨
      containsSubstr msg nonceMsg = true) :
    (∃ o, handleSendError msg = .ok o ∧
      (o = SubmissionOutcome.skippedAlreadyFresh ∨
       o = SubmissionOutcome.skippedNonceConflict)) ∧
    ∃ r, pushUpdates prices pts env = .ok r := by
  have hmain : ∃ o, handleSendError msg = .ok o ∧
      (o = SubmissionOutcome.skippedAlreadyFresh ∨
       o = SubmissionOutcome.skippedNonceConflict) := by
    by_cases hfm : containsSubstr msg freshPricesMsg = true
    · exact ⟨.skippedAlreadyFresh, by simp [handleSendError, hfm], Or.inl rfl⟩
    · have hn : containsSubstr msg nonceMsg = true := h.resolve_left hfm
      exact ⟨.skippedNonceConflict, by simp [handleSendError, hfm, hn], Or.inr rfl⟩
  refine ⟨hmain, ?_⟩
  obtain ⟨o, ho, -⟩ := hmain
  by_cases hlen : prices.length = 0
  · exact ⟨⟨false, false, false, [], .noop⟩, by simp [pushUpdates, hlen]⟩
  · exact ⟨⟨true, true, true, pts, o⟩, by simp [pushUpdates, hlen, hf, hs, ho]⟩

/-- Witness for C5 at the exact stale-batch marker string. -/
theorem benignErrors_skipped_witness :
    (∃ o, handleSendError freshPricesMsg = Except.ok o ∧
      (o = SubmissionOutcome.skippedAlreadyFresh ∨
       o = SubmissionOutcome.skippedNonceConflict)) ∧
    ∃ r, pushUpdates [PriceConfig.mk "a" "b" 0 0 0] [1]
      (Env.mk (Except.ok []) 0 (SendEvent.sendErr freshPricesMsg))
      = Except.ok r :=
  benignErrors_skipped [PriceConfig.mk "a" "b" 0 0 0] [1]
    (Env.mk (Except.ok []) 0 (SendEvent.sendErr freshPricesMsg))
    freshPricesMsg [] rfl rfl (Or.inl (by decide))

/-- Counterexample for C6: a failing payload fetch is NOT contained in the
tick: there is no try/catch around the fetch, so the error leaves
`pushUpdates` (and `start` does not await the call, so nothing downstream
handles or reports it either). -/
theorem fetchFailure_escapes :
    pushUpdates [PriceConfig.mk "a" "b" 60 1 10] [1]
      (Env.mk (Except.error "service unavailable") 0 (SendEvent.txHash "h"))
      = Except.error "service unavailable" := rfl

/-- Claim C6 (amended): when the payload fetch fails on a nonempty batch,
`pushUpdates` performs no fee estimation and no submission, and the fetch
error propagates out of `pushUpdates` uncaught and unreported; the
scheduler loop continues only because it never awaits the call, not
because the error is handled. -/
theorem fetchFailure_propagates (prices : List PriceConfig) (pts : List ℤ)
    (env : Env) (msg : String)
    (hne : prices ≠ [])
    (hf : env.fetchResult = .error msg) :
    pushUpdates prices pts env = .error msg := by
  have hlen : ¬ prices.length = 0 := by simpa using hne
  simp [pushUpdates, hlen, hf]

/-- Witness for C6 (amended) at a concrete failing fetch. -/
theorem fetchFailure_propagates_witness :
    pushUpdates [PriceConfig.mk "a" "b" 60 1 10] [5]
      (Env.mk (Except.error "http 500") 0 (SendEvent.txHash "h"))
      = Except.error "http 500" :=
  fetchFailure_propagates [PriceConfig.mk "a" "b" 60 1 10] [5]
    (Env.mk (Except.error "http 500") 0 (SendEvent.txHash "h")) "http 500"
    (List.cons_ne_nil _ _) rfl

/-- Claim C7: every feed selected into the batch is paired with the
baseline publish time captured at decision time — the target observation's
publish time plus one when one exists, and one when none exists — and a
tick passes exactly the captured baseline list on to `pushUpdates`. -/
theorem selectBatch_baseline (configs : List PriceConfig)
    (source target : String → Option PriceInfo) :
    (selectBatch configs source target).2
      = (selectBatch configs source target).1.map
          (fun pc => baselinePubTime (target pc.id)) ∧
    (∀ p : PriceInfo, baselinePubTime (some p) = p.publishTime + 1) ∧
    baselinePubTime none = 1 ∧
    ∀ env : Env, runTick configs source target env
      = pushUpdates (selectBatch configs source target).1
          (selectBatch configs source target).2 env := by
  refine ⟨?_, ?_, rfl, fun env => rfl⟩
  · induction configs with
    | nil => rfl
    | cons pc rest ih =>
      simp only [selectBatch]
      split
      · simp [ih]
      · exact ih
  · intro p
    by_cases h : p.publishTime = 0 <;> simp [baselinePubTime, h]

/-- Counterexample for C8: an execution in which the submission spawned at
tick 0 takes one tick to resolve: tick 1's batch pass (index 2 of the
trace) happens before tick 0's submission completes (index 3), so the loop
is not strictly sequential — `start` never awaits `pushUpdates`. -/
theorem sequentiality_violated :
    TickEvent.submissionComplete 0 ∈ schedulerTrace (fun _ => 1) 2 ∧
    (schedulerTrace (fun _ => 1) 2).indexOf (TickEvent.batcherRun 1) <
      (schedulerTrace (fun _ => 1) 2).indexOf (TickEvent.submissionComplete 0) := by
  decide

/-- Claim C8 (amended): the loop's own steps are sequential — each tick is
batch pass, spawn, sleep — but the spawned submission of tick `n` completes
only during the sleep of tick `n + L n`; it falls inside tick `n` itself
(before the next batch pass) exactly when the fetch and send resolve within
that tick's sleep (`L n = 0`), in which case a tick's full event list is
batch pass, submission completion, sleep end. -/
theorem submission_completes_at_latency (L : ℕ → ℕ) (n : ℕ) :
    TickEvent.submissionComplete n ∈ tickTrace L (n + L n) ∧
    (TickEvent.submissionComplete n ∈ tickTrace L n ↔ L n = 0) ∧
    tickTrace (fun _ => 0) n
      = [TickEvent.batcherRun n, TickEvent.submissionComplete n,
         TickEvent.cooldownSleep n] := by
  refine ⟨?_, ⟨?_, ?_⟩, ?_⟩
  · simp only [tickTrace, List.mem_cons, List.mem_append, List.mem_map,
      List.mem_filter, List.mem_range, List.mem_singleton, beq_iff_eq]
    exact Or.inr (Or.inl ⟨n, ⟨by omega, rfl⟩, rfl⟩)
  · intro hmem
    simp only [tickTrace, List.mem_cons, List.mem_append, List.mem_map,
      List.mem_filter, List.mem_range, List.mem_singleton, beq_iff_eq,
      TickEvent.submissionComplete.injEq] at hmem
    rcases hmem with h | h | h | h
    · exact TickEvent.noConfusion h
    · obtain ⟨m, ⟨hm1, hm2⟩, rfl⟩ := h
      omega
    · exact TickEvent.noConfusion h
    · exact absurd h (List.not_mem_nil _)
  · intro h0
    simp only [tickTrace, List.mem_cons, List.mem_append, List.mem_map,
      List.mem_filter, List.mem_range, List.mem_singleton, beq_iff_eq,
      TickEvent.submissionComplete.injEq]
    exact Or.inr (Or.inl ⟨n, ⟨by omega, by omega⟩, rfl⟩)
  · have hf : (List.range (n + 1)).filter (fun m => m + 0 == n) = [n] := by
      rw [List.range_succ, List.filter_append]
      have h1 : (List.range n).filter (fun m => m + 0 == n) = [] := by
        rw [List.filter_eq_nil_iff]
        intro m hm
        rw [List.mem_range] at hm
        simp only [beq_iff_eq]
        omega
      rw [h1, List.nil_append]
      simp
    simp only [tickTrace, hf]
    rfl

/-- Claim C9: on an empty batch `pushUpdates` returns at once with a no-op
outcome: no payload fetch, no fee estimation, no submission call, and no
error, whatever the environment would have answered. -/
theorem emptyBatch_noop (pts : List ℤ) (env : Env) :
    pushUpdates [] pts env
      = Except.ok (PushResult.mk false false false [] SubmissionOutcome.noop) := rfl

end PythPusher
